import Mathlib

/-!
Verification development for the authentication and session-lifecycle core of
the Ecommerce_store backend (`src/auth/auth.service.ts`, `src/users/users.service.ts`
and the TypeORM entities under `src/users/entities/`).

The relational store is modelled as an explicit state (`DB`) holding the four
entity tables as lists of rows. Each service method becomes a pure function
`DB -> ... -> Except AuthError result × DB`; every `await repo.xxx(...)` in the
source is one atomic access to this state.  Nondeterministic inputs of the code
are passed explicitly:

* the current clock (`new Date()`) is a `now : Nat` parameter (milliseconds);
* `randomBytes(..).toString` is a `freshTok : String` parameter;
* collaborator faults the code catches (mail send, marking a reset token used,
  saving a reset token) are boolean knobs (`mailOk`, `markUsedOk`, `saveOk`);
  every other store access is modelled as succeeding, matching the fault-free
  transactional store the service is written against.

SHA-256 (`createHash("sha256")`) is modelled as an injective tagging function
(collision freedom of the digest), and bcrypt as a deterministic keyed tag with
`bcryptCompare` checking the tag, which captures hash-equality semantics while
staying executable.  TypeORM specifics mirrored here: `findOne` returns the
first row matching the `where` clause; `@DeleteDateColumn` soft deletion makes
soft-deleted users invisible to `findOne`; `repo.save(entity)` overwrites the
row whose id matches the (mutated) entity; `repo.update(where, patch)` patches
the listed columns of every matching row.
-/

namespace EcomAuth

/-- SHA-256 hex digest of a string, modelled as an injective tag. -/
def sha256Hex (s : String) : String := "sha256/" ++ s

/-- bcrypt.hash with cost 12, modelled as a deterministic injective tag. -/
def bcryptHash12 (password : String) : String := "bcrypt12/" ++ password

/-- bcrypt.compare: does the stored hash match the presented password. -/
def bcryptCompare (password storedHash : String) : Bool :=
  storedHash == bcryptHash12 password

/-- The NestJS exception kinds thrown by the auth service. -/
inductive AuthError where
  | conflict (msg : String)
  | unauthorized (msg : String)
  | notFound (msg : String)
  | badRequest (msg : String)
  | internal (msg : String)
deriving Repr, DecidableEq

/-- JS String.prototype.toLowerCase, modelled per character; kept executable
down to the kernel. -/
def toLowerStr (s : String) : String := String.mk (s.data.map Char.toLower)

/-- Returns true on the success branch of an Except. -/
def isOkE {ε α : Type} : Except ε α → Bool
  | .ok _ => true
  | .error _ => false

/-- Row of the `users` table (user.entity.ts).  `deleted` models a non-null
`deleted_at` soft-delete column. -/
structure URec where
  id : Nat
  email : String
  password_hash : String
  full_name : String
  is_email_verified : Bool
  role : String
  disabled : Bool
  deleted : Bool
deriving Repr, DecidableEq

/-- Row of the `pre_registrations` table (pre-registration.entity.ts). -/
structure PreRegRec where
  id : Nat
  email : String
  password_hash : String
  full_name : String
  verification_token_hash : String
  expires_at : Nat
  ip : String
  user_agent : String
deriving Repr, DecidableEq

/-- Row of the `refresh_tokens` table (refresh-token.entity.ts). -/
structure RTRec where
  id : Nat
  userId : Nat
  token_hash : String
  device_id : String
  ip : String
  user_agent : String
  last_seen_at : Option Nat
  expires_at : Nat
  is_revoked : Bool
deriving Repr, DecidableEq

/-- Row of the password reset token table (part of the users entities). -/
structure PRRec where
  id : Nat
  token_hash : String
  user_id : Nat
  expires_at : Nat
  used : Bool
deriving Repr, DecidableEq

/-- The relational store: the four tables plus a fresh-id counter standing in
for uuid generation. -/
structure DB where
  users : List URec
  preRegs : List PreRegRec
  refreshTokens : List RTRec
  resetTokens : List PRRec
  nextId : Nat
deriving Repr, DecidableEq

/-- The empty store. -/
def dbEmpty : DB := ⟨[], [], [], [], 0⟩

/-- UsersService.findByEmail: `userRepository.findOne({ where: { email } })`.
Soft-deleted rows are invisible to TypeORM findOne. -/
def findByEmail (db : DB) (email : String) : Option URec :=
  db.users.find? (fun u => u.email == email && !u.deleted)

/-- Access and refresh token pair returned by generateTokens. The signed JWT is
modelled by its payload `{ sub, roles, device_id }`; `refreshToken` is the raw
secret returned to the caller. -/
structure TokenPair where
  accessSub : Nat
  accessRoles : List String
  accessDeviceId : String
  refreshToken : String
  expiresIn : Nat
deriving Repr, DecidableEq

/-- Appends a freshly created refresh-token row (repo.create + repo.save). -/
def pushToken (db : DB) (t : RTRec) : DB :=
  { db with refreshTokens := db.refreshTokens ++ [t], nextId := db.nextId + 1 }

/-- AuthService.generateTokens: signs the access token and persists a new
RefreshToken row holding the digest of the fresh raw secret, 7-day expiry. -/
def generateTokens (db : DB) (userId : Nat) (role device_id ip user_agent : String)
    (now : Nat) (freshTok : String) : TokenPair × DB :=
  let pair : TokenPair :=
    { accessSub := userId, accessRoles := [role], accessDeviceId := device_id,
      refreshToken := freshTok, expiresIn := 900 }
  let row : RTRec :=
    { id := db.nextId, userId := userId, token_hash := sha256Hex freshTok,
      device_id := device_id, ip := ip, user_agent := user_agent,
      last_seen_at := none, expires_at := now + 7 * 24 * 60 * 60 * 1000,
      is_revoked := false }
  (pair, pushToken db row)

/-- AuthService.login. -/
def login (db : DB) (email password device_id ip user_agent : String)
    (now : Nat) (freshTok : String) : Except AuthError TokenPair × DB :=
  match findByEmail db (toLowerStr email) with
  | none => (.error (.unauthorized "Invalid credentials"), db)
  | some user =>
    if !user.is_email_verified then
      (.error (.unauthorized "Email not verified"), db)
    else if !bcryptCompare password user.password_hash then
      (.error (.unauthorized "Invalid credentials"), db)
    else
      let p := generateTokens db user.id user.role device_id ip user_agent now freshTok
      (.ok p.1, p.2)

/-- The findOne of AuthService.refreshTokens: by token digest, device id and
`is_revoked: false`. -/
def rtFindOne (db : DB) (hash dev : String) : Option RTRec :=
  db.refreshTokens.find? (fun t =>
    t.token_hash == hash && t.device_id == dev && t.is_revoked == false)

/-- repo.save(mutated entity): overwrite the row with the entity id. -/
def replaceById (l : List RTRec) (t : RTRec) : List RTRec :=
  l.map (fun r => if r.id == t.id then t else r)

/-- Success payload of AuthService.refreshTokens. -/
structure RefreshOk where
  message : String
  tokens : TokenPair
deriving Repr, DecidableEq

/-- The cooldown test of AuthService.refreshTokens:
`now.getTime() - storedToken.last_seen_at.getTime() < 10 * 1000`. -/
def cooldownHit (lastSeen : Option Nat) (now : Nat) : Bool :=
  match lastSeen with
  | none => false
  | some ls => decide ((now : Int) - (ls : Int) < 10 * 1000)

/-- Continuation of AuthService.refreshTokens after its first awaited store
read has returned `found`; the remaining store writes run against `db`.  This
factors the method at its suspension point so that interleavings of two
concurrent calls can be expressed; the sequential method is the composition
`refreshTokens` below. -/
def refreshResume (db : DB) (found : Option RTRec) (device_id : String)
    (now : Nat) (freshTok : String) : Except AuthError RefreshOk × DB :=
  match found with
  | none => (.error (.unauthorized "Invalid or revoked refresh token"), db)
  | some storedToken =>
    if storedToken.expires_at < now then
      (.error (.unauthorized "Refresh token expired"), db)
    else if cooldownHit storedToken.last_seen_at now then
      (.error (.badRequest "Refresh requested too soon"), db)
    else
      let revoked : RTRec := { storedToken with is_revoked := true, last_seen_at := some now }
      let db1 : DB := { db with refreshTokens := replaceById db.refreshTokens revoked }
      let role := ((db.users.find? (fun u => u.id == storedToken.userId)).map URec.role).getD ""
      let p := generateTokens db1 storedToken.userId role device_id
        storedToken.ip storedToken.user_agent now freshTok
      (.ok { message := "Tokens refreshed successfully", tokens := p.1 }, p.2)

/-- AuthService.refreshTokens (token rotation). -/
def refreshTokens (db : DB) (refreshTokenPlain device_id : String)
    (now : Nat) (freshTok : String) : Except AuthError RefreshOk × DB :=
  refreshResume db (rtFindOne db (sha256Hex refreshTokenPlain) device_id)
    device_id now freshTok

/-- AuthService.logout: the lookup is by token digest only (no revoked filter). -/
def logout (db : DB) (refreshTokenPlain : String) : Except AuthError String × DB :=
  match db.refreshTokens.find? (fun t => t.token_hash == sha256Hex refreshTokenPlain) with
  | none => (.error (.notFound "Refresh token not found"), db)
  | some token =>
    (.ok "Logged out successfully",
     { db with refreshTokens := replaceById db.refreshTokens { token with is_revoked := true } })

/-- repo.update({ user: { id } }, { is_revoked: true }). -/
def revokeByUser (l : List RTRec) (userId : Nat) : List RTRec :=
  l.map (fun r => if r.userId == userId then { r with is_revoked := true } else r)

/-- AuthService.logoutAll. -/
def logoutAll (db : DB) (userId : Nat) : String × DB :=
  ("All sessions revoked",
   { db with refreshTokens := revokeByUser db.refreshTokens userId })

/-- RegisterDto (register.dto.ts): email, password, optional full name. -/
structure RegisterDto where
  email : String
  password : String
  full_name : Option String
deriving Repr, DecidableEq

/-- AuthService.register.  `mailOk` is whether `sendVerificationEmail`
succeeds; on mail failure the saved PreRegistration row is kept and an
internal error surfaces, exactly as in the source. -/
def register (db : DB) (dto : RegisterDto) (ip user_agent : String)
    (now : Nat) (freshTok : String) (mailOk : Bool) : Except AuthError String × DB :=
  match findByEmail db (toLowerStr dto.email) with
  | some _ => (.error (.conflict "Email already in use"), db)
  | none =>
    let passwordHash := bcryptHash12 dto.password
    let tokenHash := sha256Hex freshTok
    let expiresAt := now + 60 * 60 * 1000
    match db.preRegs.find? (fun p => p.email == toLowerStr dto.email) with
    | some preReg =>
      let updated : PreRegRec := { preReg with
        password_hash := passwordHash,
        full_name := (dto.full_name).getD "",
        verification_token_hash := tokenHash,
        expires_at := expiresAt, ip := ip, user_agent := user_agent }
      let db1 : DB := { db with
        preRegs := db.preRegs.map (fun p => if p.id == preReg.id then updated else p) }
      if mailOk then (.ok "Verification email resent. Please check your inbox.", db1)
      else (.error (.internal "Failed to send verification email. Please try again later."), db1)
    | none =>
      let row : PreRegRec :=
        { id := db.nextId, email := toLowerStr dto.email, password_hash := passwordHash,
          full_name := (dto.full_name).getD "", verification_token_hash := tokenHash,
          expires_at := expiresAt, ip := ip, user_agent := user_agent }
      let db1 : DB := { db with preRegs := db.preRegs ++ [row], nextId := db.nextId + 1 }
      if mailOk then (.ok "Verification email sent", db1)
      else (.error (.internal "Failed to send verification email. Please try again later."), db1)

/-- UsersService.createUser: duplicate-email check, then insert with the given
verification flag; disabled and soft-delete default to false, role to
CUSTOMER. -/
def createUser (db : DB) (email password_hash full_name : String) (verified : Bool) :
    Except AuthError (URec × DB) :=
  match findByEmail db email with
  | some _ => .error (.conflict "Email already exists")
  | none =>
    let u : URec :=
      { id := db.nextId, email := email, password_hash := password_hash,
        full_name := full_name, is_email_verified := verified, role := "CUSTOMER",
        disabled := false, deleted := false }
    .ok (u, { db with users := db.users ++ [u], nextId := db.nextId + 1 })

/-- AuthService.verifyEmail: lookup PreRegistration by token digest, expiry
check, create the User verified, delete the PreRegistration row. -/
def verifyEmail (db : DB) (token : String) (now : Nat) : Except AuthError String × DB :=
  match db.preRegs.find? (fun p => p.verification_token_hash == sha256Hex token) with
  | none => (.error (.conflict "Invalid or expired token"), db)
  | some preReg =>
    if preReg.expires_at < now then (.error (.conflict "Token expired"), db)
    else
      match createUser db preReg.email preReg.password_hash preReg.full_name true with
      | .error e => (.error e, db)
      | .ok ud =>
        (.ok "Email successfully verified",
         { ud.2 with preRegs := ud.2.preRegs.filter (fun p => !(p.id == preReg.id)) })

/-- repo.update({ user: { id } }, { used: true }) on the reset-token table. -/
def markAllUsed (l : List PRRec) (userId : Nat) : List PRRec :=
  l.map (fun t => if t.user_id == userId then { t with used := true } else t)

/-- The generic anti-enumeration reply of requestPasswordReset. -/
def resetFrontendMessage : String :=
  "If an account with that email exists, a password reset link was sent. Please check your email."

/-- AuthService.requestPasswordReset.  One boolean knob per fallible store or
mail access, in source order: `invalidateOk` is whether the prior-token
invalidation update succeeds — its failure is caught, logged and swallowed,
and the method continues to create the new token anyway; `saveOk` is whether
persisting the new reset token succeeds (failure surfaces as an internal error
in the source); `mailOk` is whether the reset mail sends — a send failure is
swallowed and the caller still receives the generic message, as in the
source. -/
def requestPasswordReset (db : DB) (email : String) (now : Nat) (freshTok : String)
    (invalidateOk saveOk _mailOk : Bool) : Except AuthError String × DB :=
  match findByEmail db (toLowerStr email) with
  | none => (.ok resetFrontendMessage, db)
  | some user =>
    if !user.is_email_verified then (.ok resetFrontendMessage, db)
    else
      let db1 : DB :=
        if invalidateOk then { db with resetTokens := markAllUsed db.resetTokens user.id }
        else db
      if !saveOk then
        (.error (.internal "Failed to generate reset token. Please try again later."), db1)
      else
        let row : PRRec :=
          { id := db1.nextId, token_hash := sha256Hex freshTok, user_id := user.id,
            expires_at := now + 15 * 60 * 1000, used := false }
        let db2 : DB :=
          { db1 with resetTokens := db1.resetTokens ++ [row], nextId := db1.nextId + 1 }
        (.ok resetFrontendMessage, db2)

/-- AuthService.verifyResetToken: read-only validation of a reset token. -/
def verifyResetToken (db : DB) (tokenPlain : String) (now : Nat) :
    Except AuthError (Bool × String) × DB :=
  match db.resetTokens.find? (fun t => t.token_hash == sha256Hex tokenPlain) with
  | none => (.error (.unauthorized "This reset link is invalid or has already been used."), db)
  | some stored =>
    if stored.used then
      (.error (.unauthorized "This reset link is invalid or has already been used."), db)
    else if stored.expires_at < now then
      (.error (.unauthorized "This reset link has expired. Please request a new one."), db)
    else
      (.ok (true, ((db.users.find? (fun u => u.id == stored.user_id)).map URec.email).getD ""),
       db)

/-- UsersService.updatePassword: column update of the stored password hash. -/
def updatePasswordRows (l : List URec) (userId : Nat) (newHash : String) : List URec :=
  l.map (fun u => if u.id == userId then { u with password_hash := newHash } else u)

/-- repo.save of the reset-token entity after `stored.used = true`: overwrite
the row whose id matches the mutated entity. -/
def markUsedById (l : List PRRec) (stored : PRRec) : List PRRec :=
  l.map (fun t => if t.id == stored.id then { stored with used := true } else t)

/-- AuthService.resetPassword.  `markUsedOk` is whether saving the used flag on
the reset token succeeds; the source swallows that failure and still attempts
logoutAll afterwards.  `logoutAllOk` is whether the logoutAll revocation update
itself succeeds — its failure is likewise caught, logged and swallowed, and the
method still reports success. -/
def resetPassword (db : DB) (tokenPlain newPassword : String) (now : Nat)
    (markUsedOk logoutAllOk : Bool) : Except AuthError String × DB :=
  match db.resetTokens.find? (fun t => t.token_hash == sha256Hex tokenPlain) with
  | none => (.error (.unauthorized "This reset link is invalid or has already been used."), db)
  | some stored =>
    if stored.used then
      (.error (.unauthorized "This reset link is invalid or has already been used."), db)
    else if stored.expires_at < now then
      (.error (.unauthorized "This reset link has expired. Please request a new one."), db)
    else
      let newHash := bcryptHash12 newPassword
      let db1 : DB := { db with users := updatePasswordRows db.users stored.user_id newHash }
      let db2 : DB :=
        if markUsedOk then { db1 with resetTokens := markUsedById db1.resetTokens stored }
        else db1
      let db3 : DB := if logoutAllOk then (logoutAll db2 stored.user_id).2 else db2
      (.ok "Your password has been reset successfully. Please log in with your new password.",
       db3)

/-- One service call with all of its nondeterministic inputs. -/
inductive Op where
  | opRegister (dto : RegisterDto) (ip ua : String) (now : Nat) (freshTok : String) (mailOk : Bool)
  | opVerifyEmail (token : String) (now : Nat)
  | opLogin (email password device_id ip ua : String) (now : Nat) (freshTok : String)
  | opRefresh (plain device_id : String) (now : Nat) (freshTok : String)
  | opLogout (plain : String)
  | opLogoutAll (userId : Nat)
  | opRequestReset (email : String) (now : Nat) (freshTok : String)
      (invalidateOk saveOk mailOk : Bool)
  | opVerifyReset (tokenPlain : String) (now : Nat)
  | opResetPassword (tokenPlain newPassword : String) (now : Nat)
      (markUsedOk logoutAllOk : Bool)

/-- The store state after one service call (the call result is dropped). -/
def applyOp (op : Op) (db : DB) : DB :=
  match op with
  | .opRegister dto ip ua now ft mOk => (register db dto ip ua now ft mOk).2
  | .opVerifyEmail t now => (verifyEmail db t now).2
  | .opLogin e p d i u now ft => (login db e p d i u now ft).2
  | .opRefresh p d now ft => (refreshTokens db p d now ft).2
  | .opLogout p => (logout db p).2
  | .opLogoutAll uid => (logoutAll db uid).2
  | .opRequestReset e now ft iOk sOk mOk => (requestPasswordReset db e now ft iOk sOk mOk).2
  | .opVerifyReset t now => (verifyResetToken db t now).2
  | .opResetPassword t p now mOk lOk => (resetPassword db t p now mOk lOk).2

/-- Digests of the fresh random secrets an operation persists. -/
def opFreshHashes : Op → List String
  | .opRegister _ _ _ _ ft _ => [sha256Hex ft]
  | .opLogin _ _ _ _ _ _ ft => [sha256Hex ft]
  | .opRefresh _ _ _ ft => [sha256Hex ft]
  | .opRequestReset _ _ ft _ _ _ => [sha256Hex ft]
  | _ => []

/-- Whether the swallowed prior-token invalidation update inside the call (if
it performs one) succeeds. -/
def opInvalidateOk : Op → Bool
  | .opRequestReset _ _ _ iOk _ _ => iOk
  | _ => true

/-- One service call, any inputs. -/
def StepAny (a b : DB) : Prop := ∃ op, b = applyOp op a

/-- One service call in which the caught-and-swallowed prior-token
invalidation update of requestPasswordReset does not fail. -/
def StepNoInvFault (a b : DB) : Prop :=
  ∃ op, b = applyOp op a ∧ opInvalidateOk op = true

/-- One service call whose freshly generated secret (if any) does not collide
with the digest `h` — freshness of the random token generator. -/
def StepAvoid (h : String) (a b : DB) : Prop :=
  ∃ op, b = applyOp op a ∧ h ∉ opFreshHashes op

/-- States reachable from the empty store by service calls. -/
def Reachable (db : DB) : Prop := Relation.ReflTransGen StepAny dbEmpty db

/-- Sign-up for a fresh account (first step of the C8 scenario). -/
def c8op1 : Op := .opRegister ⟨"a@x.com", "pw", some "A"⟩ "ip" "ua" 0 "v" true

/-- Redeem the verification token, creating the verified user. -/
def c8op2 : Op := .opVerifyEmail "v" 10

/-- First password-reset request; every swallowed store access succeeds. -/
def c8op3 : Op := .opRequestReset "a@x.com" 20 "s1" true true true

/-- Second password-reset request whose prior-token invalidation update fails
(caught and swallowed by the source, which saves the new token anyway). -/
def c8op4 : Op := .opRequestReset "a@x.com" 30 "s2" false true true

/-- The store after the four-call C8 scenario. -/
def c8bad : DB := applyOp c8op4 (applyOp c8op3 (applyOp c8op2 (applyOp c8op1 dbEmpty)))

/-- Every refresh-token row carrying the digest h is revoked. -/
def AllRevokedL (h : String) (l : List RTRec) : Prop :=
  ∀ t ∈ l, t.token_hash = h → t.is_revoked = true

/-- Concrete store for exercising C1. -/
def c1db : DB :=
  { users := [{ id := 0, email := "a@x.com", password_hash := bcryptHash12 "pw",
                full_name := "A", is_email_verified := true, role := "CUSTOMER",
                disabled := false, deleted := false }],
    preRegs := [],
    refreshTokens := [{ id := 1, userId := 0, token_hash := sha256Hex "rt0",
                        device_id := "dev", ip := "ip", user_agent := "ua",
                        last_seen_at := none, expires_at := 1000000,
                        is_revoked := false }],
    resetTokens := [], nextId := 2 }

/-- Every unrevoked refresh-token row has an unset last-seen timestamp: the
only write that ever sets last_seen_at (rotation) also revokes the row. -/
def FreshLastSeenL (l : List RTRec) : Prop :=
  ∀ t ∈ l, t.is_revoked = false → t.last_seen_at = none

/-- Number of not-yet-used reset-token rows a user owns. -/
def UnusedCount (l : List PRRec) (uid : Nat) : Nat :=
  l.countP (fun t => t.user_id == uid && t.used == false)

/-- At most one unused reset token per user. -/
def ResetInvL (l : List PRRec) : Prop := ∀ uid, UnusedCount l uid ≤ 1

/-- Concrete store with one valid refresh token, used to exhibit the rotation
race of two concurrent refreshTokens calls. -/
def raceDB : DB :=
  { users := [{ id := 0, email := "a@x.com", password_hash := bcryptHash12 "pw",
                full_name := "A", is_email_verified := true, role := "CUSTOMER",
                disabled := false, deleted := false }],
    preRegs := [],
    refreshTokens := [{ id := 1, userId := 0, token_hash := sha256Hex "rt0",
                        device_id := "dev", ip := "ip", user_agent := "ua",
                        last_seen_at := none, expires_at := 1000000,
                        is_revoked := false }],
    resetTokens := [], nextId := 2 }

/-- Concrete store for exercising C3. -/
def preB : PreRegRec :=
  { id := 0, email := "b@x.com", password_hash := bcryptHash12 "pw", full_name := "B",
    verification_token_hash := sha256Hex "v1", expires_at := 100, ip := "ip",
    user_agent := "ua" }

def c3db : DB :=
  { users := [], preRegs := [preB], refreshTokens := [], resetTokens := [], nextId := 1 }

/-- Concrete store with a verified but disabled user. -/
def c5db : DB :=
  { users := [{ id := 0, email := "a@x.com", password_hash := bcryptHash12 "pw123",
                full_name := "A", is_email_verified := true, role := "CUSTOMER",
                disabled := true, deleted := false }],
    preRegs := [], refreshTokens := [], resetTokens := [], nextId := 1 }

/-- Concrete store with one live refresh token, for the logout claims. -/
def c6db : DB :=
  { users := [], preRegs := [],
    refreshTokens := [{ id := 0, userId := 0, token_hash := sha256Hex "rt0",
                        device_id := "dev", ip := "ip", user_agent := "ua",
                        last_seen_at := none, expires_at := 1000,
                        is_revoked := false }],
    resetTokens := [], nextId := 1 }

/-- Concrete store for the reset-password claims: one verified user, one live
refresh token, one live reset token. -/
def c9db : DB :=
  { users := [{ id := 0, email := "a@x.com", password_hash := bcryptHash12 "old",
                full_name := "A", is_email_verified := true, role := "CUSTOMER",
                disabled := false, deleted := false }],
    preRegs := [],
    refreshTokens := [{ id := 1, userId := 0, token_hash := sha256Hex "rt0",
                        device_id := "dev", ip := "ip", user_agent := "ua",
                        last_seen_at := none, expires_at := 1000,
                        is_revoked := false }],
    resetTokens := [{ id := 2, token_hash := sha256Hex "pr1", user_id := 0,
                      expires_at := 100, used := false }],
    nextId := 3 }

/-- Concrete store holding one of each kind of token, all expiring at 100. -/
def c10db : DB :=
  { users := [{ id := 0, email := "a@x.com", password_hash := bcryptHash12 "pw",
                full_name := "A", is_email_verified := true, role := "CUSTOMER",
                disabled := false, deleted := false }],
    preRegs := [{ id := 1, email := "b@x.com", password_hash := bcryptHash12 "pw",
                  full_name := "B", verification_token_hash := sha256Hex "v1",
                  expires_at := 100, ip := "ip", user_agent := "ua" }],
    refreshTokens := [{ id := 2, userId := 0, token_hash := sha256Hex "r1",
                        device_id := "dev", ip := "ip", user_agent := "ua",
                        last_seen_at := none, expires_at := 100, is_revoked := false }],
    resetTokens := [{ id := 3, token_hash := sha256Hex "s1", user_id := 0,
                      expires_at := 100, used := false }],
    nextId := 4 }

theorem allRevokedL_append {h : String} {l : List RTRec} {row : RTRec}
    (hl : AllRevokedL h l) (hrow : row.token_hash ≠ h) :
    AllRevokedL h (l ++ [row]) := by
  intro t ht hh
  rcases List.mem_append.mp ht with h1 | h1
  · exact hl t h1 hh
  · simp only [List.mem_singleton] at h1
    subst h1
    exact absurd hh hrow

theorem allRevokedL_replace {h : String} {l : List RTRec} {t' : RTRec}
    (hl : AllRevokedL h l) (hrev : t'.is_revoked = true) :
    AllRevokedL h (replaceById l t') := by
  intro t ht hh
  rcases List.mem_map.mp ht with ⟨r, hr, hfr⟩
  split at hfr
  · subst hfr; exact hrev
  · subst hfr; exact hl r hr hh

theorem allRevokedL_revokeByUser {h : String} {l : List RTRec} {uid : Nat}
    (hl : AllRevokedL h l) : AllRevokedL h (revokeByUser l uid) := by
  intro t ht hh
  rcases List.mem_map.mp ht with ⟨r, hr, hfr⟩
  split at hfr
  · subst hfr; rfl
  · subst hfr; exact hl r hr hh

theorem register_rt_eq (db : DB) (dto : RegisterDto) (ip ua : String) (now : Nat)
    (ft : String) (mOk : Bool) :
    ((register db dto ip ua now ft mOk).2).refreshTokens = db.refreshTokens := by
  unfold register
  repeat' split
  all_goals rfl

theorem verifyEmail_rt_eq (db : DB) (tok : String) (now : Nat) :
    ((verifyEmail db tok now).2).refreshTokens = db.refreshTokens := by
  unfold verifyEmail
  split
  · rfl
  · split
    · rfl
    · split
      · rfl
      · rename_i ud heq
        unfold createUser at heq
        split at heq
        · exact absurd heq (by simp)
        · injection heq with h2
          subst h2
          rfl

theorem requestReset_rt_eq (db : DB) (e : String) (now : Nat) (ft : String)
    (iOk sOk mOk : Bool) :
    ((requestPasswordReset db e now ft iOk sOk mOk).2).refreshTokens = db.refreshTokens := by
  unfold requestPasswordReset
  repeat' split
  all_goals rfl

theorem verifyReset_db_eq (db : DB) (tok : String) (now : Nat) :
    (verifyResetToken db tok now).2 = db := by
  unfold verifyResetToken
  repeat' split
  all_goals rfl

theorem login_allRevoked {h : String} {db : DB} (e p d i u : String) (now : Nat)
    (ft : String) (hfr : sha256Hex ft ≠ h)
    (hinv : AllRevokedL h db.refreshTokens) :
    AllRevokedL h ((login db e p d i u now ft).2).refreshTokens := by
  unfold login
  split
  · exact hinv
  · split
    · exact hinv
    · split
      · exact hinv
      · exact allRevokedL_append hinv hfr

theorem refreshResume_allRevoked {h : String} {db : DB} (found : Option RTRec)
    (d : String) (now : Nat) (ft : String) (hfr : sha256Hex ft ≠ h)
    (hinv : AllRevokedL h db.refreshTokens) :
    AllRevokedL h ((refreshResume db found d now ft).2).refreshTokens := by
  unfold refreshResume
  split
  · exact hinv
  · split
    · exact hinv
    · split
      · exact hinv
      · exact allRevokedL_append (allRevokedL_replace hinv rfl) hfr

theorem logout_allRevoked {h : String} {db : DB} (p : String)
    (hinv : AllRevokedL h db.refreshTokens) :
    AllRevokedL h ((logout db p).2).refreshTokens := by
  unfold logout
  split
  · exact hinv
  · exact allRevokedL_replace hinv rfl

theorem resetPassword_allRevoked {h : String} {db : DB} (tok p : String) (now : Nat)
    (mOk lOk : Bool) (hinv : AllRevokedL h db.refreshTokens) :
    AllRevokedL h ((resetPassword db tok p now mOk lOk).2).refreshTokens := by
  unfold resetPassword
  split
  · exact hinv
  · split
    · exact hinv
    · split
      · exact hinv
      · unfold logoutAll
        by_cases hm : mOk <;> by_cases hl : lOk <;>
          simp only [hm, hl, if_true, if_false]
        · exact allRevokedL_revokeByUser hinv
        · exact hinv
        · exact allRevokedL_revokeByUser hinv
        · exact hinv

theorem stepAvoid_allRevoked {h : String} {a b : DB} (hstep : StepAvoid h a b)
    (hinv : AllRevokedL h a.refreshTokens) : AllRevokedL h b.refreshTokens := by
  obtain ⟨op, hb, hfr⟩ := hstep
  subst hb
  cases op with
  | opRegister dto ip ua now ft mOk =>
    show AllRevokedL h ((register a dto ip ua now ft mOk).2).refreshTokens
    rw [register_rt_eq]
    exact hinv
  | opVerifyEmail t now =>
    show AllRevokedL h ((verifyEmail a t now).2).refreshTokens
    rw [verifyEmail_rt_eq]
    exact hinv
  | opLogin e p d i u now ft =>
    simp only [opFreshHashes, List.mem_singleton] at hfr
    exact login_allRevoked e p d i u now ft (fun hcontra => hfr hcontra.symm) hinv
  | opRefresh p d now ft =>
    simp only [opFreshHashes, List.mem_singleton] at hfr
    exact refreshResume_allRevoked _ d now ft (fun hcontra => hfr hcontra.symm) hinv
  | opLogout p => exact logout_allRevoked p hinv
  | opLogoutAll uid => exact allRevokedL_revokeByUser hinv
  | opRequestReset e now ft iOk sOk mOk =>
    show AllRevokedL h ((requestPasswordReset a e now ft iOk sOk mOk).2).refreshTokens
    rw [requestReset_rt_eq]
    exact hinv
  | opVerifyReset t now =>
    show AllRevokedL h ((verifyResetToken a t now).2).refreshTokens
    rw [verifyReset_db_eq]
    exact hinv
  | opResetPassword t p now mOk lOk => exact resetPassword_allRevoked t p now mOk lOk hinv

theorem rotation_establishes {db : DB} {plain dev : String} {now : Nat} {ft : String}
    {r : RefreshOk} {db1 : DB}
    (hnodup : (db.refreshTokens.map RTRec.token_hash).Nodup)
    (hfresh : sha256Hex ft ≠ sha256Hex plain)
    (hsucc : refreshTokens db plain dev now ft = (.ok r, db1)) :
    AllRevokedL (sha256Hex plain) db1.refreshTokens := by
  unfold refreshTokens at hsucc
  cases hfind : rtFindOne db (sha256Hex plain) dev with
  | none =>
    rw [hfind] at hsucc
    exact absurd hsucc (by simp [refreshResume])
  | some t =>
    rw [hfind] at hsucc
    unfold refreshResume at hsucc
    split at hsucc
    · exact absurd hsucc (by simp)
    · rename_i tt heq
      injection heq with heq2
      subst heq2
      split at hsucc
      · exact absurd hsucc (by simp)
      · split at hsucc
        · exact absurd hsucc (by simp)
        · simp only [generateTokens, pushToken, Prod.mk.injEq] at hsucc
          obtain ⟨-, hdb1⟩ := hsucc
          subst hdb1
          have htmem : t ∈ db.refreshTokens := List.mem_of_find?_eq_some hfind
          have htpred := List.find?_some hfind
          simp only [Bool.and_eq_true, beq_iff_eq] at htpred
          apply allRevokedL_append _ hfresh
          intro t' ht' hh
          rcases List.mem_map.mp ht' with ⟨r0, hr0, hfr0⟩
          split at hfr0
          · subst hfr0; rfl
          · subst hfr0
            rename_i hneq
            exfalso
            have : r0 = t :=
              List.inj_on_of_nodup_map hnodup hr0 htmem (by rw [hh, htpred.1.1])
            subst this
            simp at hneq

theorem allRevoked_refresh_fails {db : DB} (plain dev ft : String) (now : Nat)
    (hinv : AllRevokedL (sha256Hex plain) db.refreshTokens) :
    (refreshTokens db plain dev now ft).1 =
      .error (.unauthorized "Invalid or revoked refresh token") := by
  unfold refreshTokens
  have hnone : rtFindOne db (sha256Hex plain) dev = none := by
    unfold rtFindOne
    rw [List.find?_eq_none]
    intro t ht
    simp only [Bool.and_eq_true, beq_iff_eq, not_and]
    intro hh hrev
    rw [hinv t ht hh.1] at hrev
    simp at hrev
  rw [hnone]
  rfl

/-- C1: once a raw refresh token has been consumed by a successful rotation,
the stored row is revoked at once, and after any further sequence of service
calls (whose freshly generated secrets do not collide with this digest),
presenting the same raw token to refreshTokens fails with Unauthorized. -/
theorem C1_refresh_rotation_single_use
    (db : DB) (plain dev : String) (now : Nat) (ft : String) (r : RefreshOk) (db1 : DB)
    (hnodup : (db.refreshTokens.map RTRec.token_hash).Nodup)
    (hfresh : sha256Hex ft ≠ sha256Hex plain)
    (hsucc : refreshTokens db plain dev now ft = (.ok r, db1))
    (db2 : DB)
    (hreach : Relation.ReflTransGen (StepAvoid (sha256Hex plain)) db1 db2)
    (dev' : String) (now' : Nat) (ft' : String) :
    (refreshTokens db2 plain dev' now' ft').1 =
      .error (.unauthorized "Invalid or revoked refresh token") := by
  have hinv : AllRevokedL (sha256Hex plain) db2.refreshTokens := by
    induction hreach with
    | refl => exact rotation_establishes hnodup hfresh hsucc
    | tail _ hstep ih => exact stepAvoid_allRevoked hstep ih
  exact allRevoked_refresh_fails plain dev' ft' now' hinv

theorem C1_refresh_rotation_single_use_witness :
    ∃ r db1, refreshTokens c1db "rt0" "dev" 100 "fA" = (.ok r, db1) ∧
      (refreshTokens db1 "rt0" "dev" 160 "fB").1 =
        .error (.unauthorized "Invalid or revoked refresh token") :=
  ⟨_, _, rfl,
    C1_refresh_rotation_single_use c1db "rt0" "dev" 100 "fA" _ _
      (by decide) (by decide) rfl _ Relation.ReflTransGen.refl "dev" 160 "fB"⟩

theorem freshLastSeenL_append {l : List RTRec} {row : RTRec}
    (hl : FreshLastSeenL l) (hrow : row.last_seen_at = none) :
    FreshLastSeenL (l ++ [row]) := by
  intro t ht hrev
  rcases List.mem_append.mp ht with h1 | h1
  · exact hl t h1 hrev
  · simp only [List.mem_singleton] at h1
    subst h1
    exact hrow

theorem freshLastSeenL_replace {l : List RTRec} {t' : RTRec}
    (hl : FreshLastSeenL l) (hrev' : t'.is_revoked = true) :
    FreshLastSeenL (replaceById l t') := by
  intro t ht hrev
  rcases List.mem_map.mp ht with ⟨r, hr, hfr⟩
  split at hfr
  · subst hfr
    rw [hrev'] at hrev
    cases hrev
  · subst hfr
    exact hl r hr hrev

theorem freshLastSeenL_revokeByUser {l : List RTRec} {uid : Nat}
    (hl : FreshLastSeenL l) : FreshLastSeenL (revokeByUser l uid) := by
  intro t ht hrev
  rcases List.mem_map.mp ht with ⟨r, hr, hfr⟩
  split at hfr
  · subst hfr
    cases hrev
  · subst hfr
    exact hl r hr hrev

theorem login_freshLastSeen {db : DB} (e p d i u : String) (now : Nat) (ft : String)
    (hinv : FreshLastSeenL db.refreshTokens) :
    FreshLastSeenL ((login db e p d i u now ft).2).refreshTokens := by
  unfold login
  split
  · exact hinv
  · split
    · exact hinv
    · split
      · exact hinv
      · exact freshLastSeenL_append hinv rfl

theorem refreshResume_freshLastSeen {db : DB} (found : Option RTRec) (d : String)
    (now : Nat) (ft : String) (hinv : FreshLastSeenL db.refreshTokens) :
    FreshLastSeenL ((refreshResume db found d now ft).2).refreshTokens := by
  unfold refreshResume
  split
  · exact hinv
  · split
    · exact hinv
    · split
      · exact hinv
      · exact freshLastSeenL_append (freshLastSeenL_replace hinv rfl) rfl

theorem logout_freshLastSeen {db : DB} (p : String)
    (hinv : FreshLastSeenL db.refreshTokens) :
    FreshLastSeenL ((logout db p).2).refreshTokens := by
  unfold logout
  split
  · exact hinv
  · exact freshLastSeenL_replace hinv rfl

theorem resetPassword_freshLastSeen {db : DB} (tok p : String) (now : Nat) (mOk lOk : Bool)
    (hinv : FreshLastSeenL db.refreshTokens) :
    FreshLastSeenL ((resetPassword db tok p now mOk lOk).2).refreshTokens := by
  unfold resetPassword
  split
  · exact hinv
  · split
    · exact hinv
    · split
      · exact hinv
      · unfold logoutAll
        by_cases hm : mOk <;> by_cases hl : lOk <;>
          simp only [hm, hl, if_true, if_false]
        · exact freshLastSeenL_revokeByUser hinv
        · exact hinv
        · exact freshLastSeenL_revokeByUser hinv
        · exact hinv

theorem stepAny_freshLastSeen {a b : DB} (hstep : StepAny a b)
    (hinv : FreshLastSeenL a.refreshTokens) : FreshLastSeenL b.refreshTokens := by
  obtain ⟨op, hb⟩ := hstep
  subst hb
  cases op with
  | opRegister dto ip ua now ft mOk =>
    show FreshLastSeenL ((register a dto ip ua now ft mOk).2).refreshTokens
    rw [register_rt_eq]
    exact hinv
  | opVerifyEmail t now =>
    show FreshLastSeenL ((verifyEmail a t now).2).refreshTokens
    rw [verifyEmail_rt_eq]
    exact hinv
  | opLogin e p d i u now ft => exact login_freshLastSeen e p d i u now ft hinv
  | opRefresh p d now ft => exact refreshResume_freshLastSeen _ d now ft hinv
  | opLogout p => exact logout_freshLastSeen p hinv
  | opLogoutAll uid => exact freshLastSeenL_revokeByUser hinv
  | opRequestReset e now ft iOk sOk mOk =>
    show FreshLastSeenL ((requestPasswordReset a e now ft iOk sOk mOk).2).refreshTokens
    rw [requestReset_rt_eq]
    exact hinv
  | opVerifyReset t now =>
    show FreshLastSeenL ((verifyResetToken a t now).2).refreshTokens
    rw [verifyReset_db_eq]
    exact hinv
  | opResetPassword t p now mOk lOk => exact resetPassword_freshLastSeen t p now mOk lOk hinv

/-- C7: the TooSoon cooldown rejection of refreshTokens is dead code — in
every store state reachable from the empty store by service calls, no call to
refreshTokens can fail with the cooldown BadRequest, because a token rotated
less than the window ago is already revoked and is filtered out of the lookup,
yielding Unauthorized instead. -/
theorem C7_cooldown_unreachable (db : DB) (hreach : Reachable db)
    (plain dev : String) (now : Nat) (ft : String) :
    (refreshTokens db plain dev now ft).1 ≠
      .error (.badRequest "Refresh requested too soon") := by
  have hinv : FreshLastSeenL db.refreshTokens := by
    induction hreach with
    | refl => intro t ht _; cases ht
    | tail _ hstep ih => exact stepAny_freshLastSeen hstep ih
  unfold refreshTokens
  cases hfind : rtFindOne db (sha256Hex plain) dev with
  | none => simp [refreshResume]
  | some t =>
    have hfind' : db.refreshTokens.find? (fun x =>
        x.token_hash == sha256Hex plain && x.device_id == dev && x.is_revoked == false) =
        some t := hfind
    have htpred := List.find?_some hfind'
    simp only [Bool.and_eq_true, beq_iff_eq] at htpred
    have hls : t.last_seen_at = none :=
      hinv t (List.mem_of_find?_eq_some hfind') htpred.2
    by_cases hexp : t.expires_at < now
    · simp [refreshResume, hexp]
    · simp [refreshResume, hexp, hls, cooldownHit]

theorem C7_cooldown_unreachable_witness :
    Reachable dbEmpty ∧
      (refreshTokens dbEmpty "rt" "dev" 5 "ft").1 ≠
        .error (.badRequest "Refresh requested too soon") :=
  ⟨Relation.ReflTransGen.refl,
   C7_cooldown_unreachable dbEmpty Relation.ReflTransGen.refl "rt" "dev" 5 "ft"⟩

theorem register_reset_eq (db : DB) (dto : RegisterDto) (ip ua : String) (now : Nat)
    (ft : String) (mOk : Bool) :
    ((register db dto ip ua now ft mOk).2).resetTokens = db.resetTokens := by
  unfold register
  repeat' split
  all_goals rfl

theorem verifyEmail_reset_eq (db : DB) (tok : String) (now : Nat) :
    ((verifyEmail db tok now).2).resetTokens = db.resetTokens := by
  unfold verifyEmail
  split
  · rfl
  · split
    · rfl
    · split
      · rfl
      · rename_i ud heq
        unfold createUser at heq
        split at heq
        · exact absurd heq (by simp)
        · injection heq with h2
          subst h2
          rfl

theorem login_reset_eq (db : DB) (e p d i u : String) (now : Nat) (ft : String) :
    ((login db e p d i u now ft).2).resetTokens = db.resetTokens := by
  unfold login generateTokens pushToken
  repeat' split
  all_goals rfl

theorem refreshResume_reset_eq (db : DB) (found : Option RTRec) (d : String)
    (now : Nat) (ft : String) :
    ((refreshResume db found d now ft).2).resetTokens = db.resetTokens := by
  unfold refreshResume generateTokens pushToken
  repeat' split
  all_goals rfl

theorem logout_reset_eq (db : DB) (p : String) :
    ((logout db p).2).resetTokens = db.resetTokens := by
  unfold logout
  repeat' split
  all_goals rfl

theorem unusedCount_markAllUsed_self (l : List PRRec) (uid : Nat) :
    UnusedCount (markAllUsed l uid) uid = 0 := by
  unfold UnusedCount markAllUsed
  rw [List.countP_eq_zero]
  intro a ha
  rcases List.mem_map.mp ha with ⟨r, _, hfr⟩
  split at hfr
  · subst hfr
    simp
  · subst hfr
    rename_i hneq
    simp only [Bool.and_eq_true, beq_iff_eq]
    intro hcontra
    exact hneq (by rw [hcontra.1]; simp)

theorem unusedCount_markAllUsed_le (l : List PRRec) (uid uid' : Nat) :
    UnusedCount (markAllUsed l uid) uid' ≤ UnusedCount l uid' := by
  unfold UnusedCount markAllUsed
  rw [List.countP_map]
  apply List.countP_mono_left
  intro x _ hx
  simp only [Function.comp] at hx
  split at hx
  · simp at hx
  · exact hx

theorem unusedCount_markUsedById_le (l : List PRRec) (stored : PRRec) (uid' : Nat) :
    UnusedCount (markUsedById l stored) uid' ≤ UnusedCount l uid' := by
  unfold UnusedCount markUsedById
  rw [List.countP_map]
  apply List.countP_mono_left
  intro x _ hx
  simp only [Function.comp] at hx
  split at hx
  · simp at hx
  · exact hx

theorem resetInv_mark_append (l : List PRRec) (uid0 : Nat) (row : PRRec)
    (hrow : row.user_id = uid0) (hinv : ResetInvL l) :
    ResetInvL (markAllUsed l uid0 ++ [row]) := by
  intro uid
  have hsplit : UnusedCount (markAllUsed l uid0 ++ [row]) uid =
      UnusedCount (markAllUsed l uid0) uid +
        List.countP (fun t => t.user_id == uid && t.used == false) [row] := by
    unfold UnusedCount
    rw [List.countP_append]
  rw [hsplit]
  by_cases huid : uid = uid0
  · subst huid
    rw [unusedCount_markAllUsed_self]
    have hone : List.countP (fun t => t.user_id == uid && t.used == false) [row] ≤ 1 := by
      simp only [List.countP_cons, List.countP_nil]
      split <;> simp
    omega
  · have h1 : List.countP (fun t => t.user_id == uid && t.used == false) [row] = 0 := by
      simp only [List.countP_cons, List.countP_nil]
      have hnot : (row.user_id == uid && row.used == false) = false := by
        have : (row.user_id == uid) = false := by
          rw [hrow]
          exact beq_false_of_ne (fun hc => huid hc.symm)
        rw [this]
        rfl
      rw [hnot]
      rfl
    rw [h1]
    have hle := le_trans (unusedCount_markAllUsed_le l uid0 uid) (hinv uid)
    omega

theorem requestReset_resetInv {db : DB} (e : String) (now : Nat) (ft : String)
    (sOk mOk : Bool) (hinv : ResetInvL db.resetTokens) :
    ResetInvL ((requestPasswordReset db e now ft true sOk mOk).2).resetTokens := by
  unfold requestPasswordReset
  split
  · exact hinv
  · split
    · exact hinv
    · split
      · split
        · intro uid
          exact le_trans (unusedCount_markAllUsed_le _ _ _) (hinv uid)
        · exact resetInv_mark_append _ _ _ rfl hinv
      · rename_i hcontra
        exact absurd rfl hcontra

theorem resetPassword_resetInv {db : DB} (tok p : String) (now : Nat) (mOk lOk : Bool)
    (hinv : ResetInvL db.resetTokens) :
    ResetInvL ((resetPassword db tok p now mOk lOk).2).resetTokens := by
  unfold resetPassword
  split
  · exact hinv
  · split
    · exact hinv
    · split
      · exact hinv
      · unfold logoutAll
        by_cases hm : mOk <;> by_cases hl : lOk <;>
          simp only [hm, hl, if_true, if_false]
        · exact fun uid => le_trans (unusedCount_markUsedById_le _ _ _) (hinv uid)
        · exact fun uid => le_trans (unusedCount_markUsedById_le _ _ _) (hinv uid)
        · exact hinv
        · exact hinv

theorem stepNoInvFault_resetInv {a b : DB} (hstep : StepNoInvFault a b)
    (hinv : ResetInvL a.resetTokens) : ResetInvL b.resetTokens := by
  obtain ⟨op, hb, hok⟩ := hstep
  subst hb
  cases op with
  | opRegister dto ip ua now ft mOk =>
    show ResetInvL ((register a dto ip ua now ft mOk).2).resetTokens
    rw [register_reset_eq]
    exact hinv
  | opVerifyEmail t now =>
    show ResetInvL ((verifyEmail a t now).2).resetTokens
    rw [verifyEmail_reset_eq]
    exact hinv
  | opLogin e p d i u now ft =>
    show ResetInvL ((login a e p d i u now ft).2).resetTokens
    rw [login_reset_eq]
    exact hinv
  | opRefresh p d now ft =>
    show ResetInvL ((refreshResume a _ d now ft).2).resetTokens
    rw [refreshResume_reset_eq]
    exact hinv
  | opLogout p =>
    show ResetInvL ((logout a p).2).resetTokens
    rw [logout_reset_eq]
    exact hinv
  | opLogoutAll uid => exact hinv
  | opRequestReset e now ft iOk sOk mOk =>
    have hiok : iOk = true := hok
    subst hiok
    exact requestReset_resetInv e now ft sOk mOk hinv
  | opVerifyReset t now =>
    show ResetInvL ((verifyResetToken a t now).2).resetTokens
    rw [verifyReset_db_eq]
    exact hinv
  | opResetPassword t p now mOk lOk => exact resetPassword_resetInv t p now mOk lOk hinv

/-- C8 counterexample: the single-active-token invariant fails on the coded
branch in which the prior-token invalidation update throws and is caught and
swallowed — register, verify, request a reset (token 1), then request another
reset whose invalidation update fails: the source saves the new token anyway
and the user ends the four-call scenario, reachable from the empty store, with
two unused, unexpired reset tokens. -/
theorem C8_double_usable_counterexample :
    Reachable c8bad ∧
      2 ≤ c8bad.resetTokens.countP (fun t =>
        t.user_id == 1 && t.used == false && !decide (t.expires_at < 40)) := by
  constructor
  · exact Relation.ReflTransGen.tail (Relation.ReflTransGen.tail
      (Relation.ReflTransGen.tail
        (Relation.ReflTransGen.tail Relation.ReflTransGen.refl ⟨c8op1, rfl⟩)
        ⟨c8op2, rfl⟩) ⟨c8op3, rfl⟩) ⟨c8op4, rfl⟩
  · decide

/-- C8 amended: in every store state reachable by service calls in which the
caught-and-swallowed prior-token invalidation update of requestPasswordReset
does not fail, each user owns at most one usable (unused and unexpired)
password-reset token: requestPasswordReset then marks all prior tokens of the
user used before inserting the new one, and every other operation can only
consume or keep reset tokens.  (When that swallowed update does fail, the
source still saves the new token and the bound is violated.) -/
theorem C8_single_active_amended (db : DB)
    (hreach : Relation.ReflTransGen StepNoInvFault dbEmpty db)
    (uid : Nat) (now : Nat) :
    db.resetTokens.countP (fun t =>
      t.user_id == uid && t.used == false && !decide (t.expires_at < now)) ≤ 1 := by
  have hinv : ResetInvL db.resetTokens := by
    induction hreach with
    | refl => intro u; simp [UnusedCount, dbEmpty]
    | tail _ hstep ih => exact stepNoInvFault_resetInv hstep ih
  have hmono : db.resetTokens.countP (fun t =>
      t.user_id == uid && t.used == false && !decide (t.expires_at < now)) ≤
      UnusedCount db.resetTokens uid := by
    unfold UnusedCount
    apply List.countP_mono_left
    intro x _ hx
    simp only [Bool.and_eq_true] at hx ⊢
    exact hx.1
  exact le_trans hmono (hinv uid)

theorem C8_single_active_amended_witness :
    Relation.ReflTransGen StepNoInvFault dbEmpty dbEmpty ∧
      dbEmpty.resetTokens.countP (fun t =>
        t.user_id == 0 && t.used == false && !decide (t.expires_at < 0)) ≤ 1 :=
  ⟨Relation.ReflTransGen.refl,
   C8_single_active_amended dbEmpty Relation.ReflTransGen.refl 0 0⟩

/-- C2: the revocation in refreshTokens is a plain read-then-write, not an
atomic check-and-set: interleaving two rotation calls on the same valid raw
token at their store-read suspension point (both reads before either write)
makes both calls succeed.  Call A runs to completion; call B has performed its
lookup against the original store and resumes against the store A left behind,
and still returns a success — two successes from one stale token, which the
claimed conditional mutation would forbid. -/
theorem C2_rotation_race_two_successes :
    isOkE (refreshTokens raceDB "rt0" "dev" 100 "fA").1 = true ∧
      isOkE (refreshResume (refreshTokens raceDB "rt0" "dev" 100 "fA").2
        (rtFindOne raceDB (sha256Hex "rt0") "dev") "dev" 100 "fB").1 = true := by
  exact ⟨rfl, rfl⟩

/-- C3: a live, unexpired PreRegistration whose email is not yet taken is
redeemed by the first verifyEmail call — which succeeds, appends exactly one
verified User, and deletes the PreRegistration — and a second call with the
same raw token fails with the invalid-or-expired Conflict. -/
theorem C3_verify_email_single_use
    (db : DB) (token : String) (now now2 : Nat) (pr : PreRegRec)
    (hfind : db.preRegs.find? (fun p => p.verification_token_hash == sha256Hex token) = some pr)
    (hnodup : (db.preRegs.map PreRegRec.verification_token_hash).Nodup)
    (hexp : ¬ pr.expires_at < now)
    (hnouser : findByEmail db pr.email = none) :
    (verifyEmail db token now).1 = .ok "Email successfully verified" ∧
    (∃ nu, (verifyEmail db token now).2.users = db.users ++ [nu] ∧
      nu.email = pr.email ∧ nu.is_email_verified = true) ∧
    (∀ q ∈ (verifyEmail db token now).2.preRegs,
      q.verification_token_hash ≠ sha256Hex token) ∧
    (verifyEmail (verifyEmail db token now).2 token now2).1 =
      .error (.conflict "Invalid or expired token") := by
  have hmain : verifyEmail db token now =
      (.ok "Email successfully verified",
        { users := db.users ++
            [{ id := db.nextId, email := pr.email, password_hash := pr.password_hash,
               full_name := pr.full_name, is_email_verified := true, role := "CUSTOMER",
               disabled := false, deleted := false }],
          preRegs := db.preRegs.filter (fun p => !(p.id == pr.id)),
          refreshTokens := db.refreshTokens, resetTokens := db.resetTokens,
          nextId := db.nextId + 1 }) := by
    unfold verifyEmail
    rw [hfind]
    simp only [if_neg hexp]
    unfold createUser
    rw [hnouser]
  have hpred := List.find?_some hfind
  have hmem := List.mem_of_find?_eq_some hfind
  simp only [beq_iff_eq] at hpred
  have hpart3 : ∀ q ∈ (verifyEmail db token now).2.preRegs,
      q.verification_token_hash ≠ sha256Hex token := by
    rw [hmain]
    intro q hq hcontra
    rcases List.mem_filter.mp hq with ⟨hq1, hq2⟩
    have : q = pr := List.inj_on_of_nodup_map hnodup hq1 hmem (by rw [hcontra, hpred])
    subst this
    simp at hq2
  refine ⟨by rw [hmain], ⟨_, by rw [hmain], rfl, rfl⟩, hpart3, ?_⟩
  have hnone : (verifyEmail db token now).2.preRegs.find?
      (fun p => p.verification_token_hash == sha256Hex token) = none := by
    rw [List.find?_eq_none]
    intro x hx
    simp only [beq_iff_eq]
    exact hpart3 x hx
  revert hnone
  generalize (verifyEmail db token now).2 = db2
  intro hnone
  unfold verifyEmail
  rw [hnone]

theorem C3_verify_email_single_use_witness :
    (verifyEmail c3db "v1" 50).1 = .ok "Email successfully verified" ∧
      (verifyEmail (verifyEmail c3db "v1" 50).2 "v1" 60).1 =
        .error (.conflict "Invalid or expired token") := by
  have h := C3_verify_email_single_use c3db "v1" 50 60 preB (by rfl)
    (by simp [c3db, preB]) (by decide) (by rfl)
  exact ⟨h.1, h.2.2.2⟩

/-- C4: with the reset-token save succeeding, requestPasswordReset returns the
same generic message for every store and every email — user absent, user
unverified, or user verified with the reset mail either sent or failing, and
with the swallowed prior-token invalidation update going either way — so the
caller cannot observe user existence. -/
theorem C4_request_reset_uniform_response (db : DB) (email : String) (now : Nat)
    (ft : String) (invalidateOk mailOk : Bool) :
    (requestPasswordReset db email now ft invalidateOk true mailOk).1 =
      .ok resetFrontendMessage := by
  unfold requestPasswordReset
  repeat' split
  any_goals rfl
  all_goals simp_all

/-- C5 counterexample: a user whose disabled flag is set, but who is verified
and presents the right password, logs in successfully — login never consults
the disabled flag, contradicting the claim that such a call fails with
Unauthorized. -/
theorem C5_login_disabled_counterexample :
    (∃ u, findByEmail c5db "a@x.com" = some u ∧ u.disabled = true) ∧
      isOkE (login c5db "a@x.com" "pw123" "dev" "ip" "ua" 0 "ft").1 = true := by
  exact ⟨⟨_, rfl, rfl⟩, by decide⟩

/-- C5 amended: login succeeds exactly when a non-soft-deleted user with the
given (lowercased) email exists, is verified, and the password digest matches;
in every other case it fails with an Unauthorized error.  The disabled flag is
not consulted; only soft-deletion hides a user from the login lookup. -/
theorem C5_login_amended (db : DB) (email password d i ua : String) (now : Nat) (ft : String) :
    (isOkE (login db email password d i ua now ft).1 = true ↔
      ∃ u, findByEmail db (toLowerStr email) = some u ∧ u.is_email_verified = true ∧
        bcryptCompare password u.password_hash = true) ∧
    (isOkE (login db email password d i ua now ft).1 = false →
      ∃ m, (login db email password d i ua now ft).1 = .error (.unauthorized m)) := by
  cases hfind : findByEmail db (toLowerStr email) with
  | none =>
    have heq : login db email password d i ua now ft =
        (.error (.unauthorized "Invalid credentials"), db) := by
      unfold login
      rw [hfind]
    rw [heq]
    refine ⟨⟨fun h => by simp [isOkE] at h, ?_⟩, fun _ => ⟨_, rfl⟩⟩
    rintro ⟨u, hu, -⟩
    cases hu
  | some u =>
    by_cases hver : u.is_email_verified = true
    · by_cases hcmp : bcryptCompare password u.password_hash = true
      · have heq : login db email password d i ua now ft =
            (.ok (generateTokens db u.id u.role d i ua now ft).1,
             (generateTokens db u.id u.role d i ua now ft).2) := by
          unfold login
          rw [hfind]
          simp [hver, hcmp]
        rw [heq]
        refine ⟨⟨fun _ => ⟨u, rfl, hver, hcmp⟩, fun _ => rfl⟩, fun hfalse => ?_⟩
        simp [isOkE] at hfalse
      · have heq : login db email password d i ua now ft =
            (.error (.unauthorized "Invalid credentials"), db) := by
          unfold login
          rw [hfind]
          simp [hver, hcmp]
        rw [heq]
        refine ⟨⟨fun h => by simp [isOkE] at h, ?_⟩, fun _ => ⟨_, rfl⟩⟩
        rintro ⟨u', hu', -, hcmp'⟩
        injection hu' with hu2
        subst hu2
        exact absurd hcmp' hcmp
    · have heq : login db email password d i ua now ft =
          (.error (.unauthorized "Email not verified"), db) := by
        unfold login
        rw [hfind]
        simp [hver]
      rw [heq]
      refine ⟨⟨fun h => by simp [isOkE] at h, ?_⟩, fun _ => ⟨_, rfl⟩⟩
      rintro ⟨u', hu', hver', -⟩
      injection hu' with hu2
      subst hu2
      exact absurd hver' hver

theorem C5_login_amended_witness :
    ∃ m, (login dbEmpty "a@x.com" "pw" "d" "i" "u" 0 "f").1 = .error (.unauthorized m) :=
  (C5_login_amended dbEmpty "a@x.com" "pw" "d" "i" "u" 0 "f").2 (by decide)

/-- C6 counterexample: logout rows are never deleted and the logout lookup
does not filter on the revoked flag, so a second logout with the same raw
token finds the (already revoked) row again and reports success — not the
NotFound the claim asserts. -/
theorem C6_second_logout_counterexample :
    (logout c6db "rt0").1 = .ok "Logged out successfully" ∧
      (logout (logout c6db "rt0").2 "rt0").1 = .ok "Logged out successfully" := by
  exact ⟨rfl, rfl⟩

/-- C6 amended: logout revokes the matching row and fails with NotFound
exactly when no row carries the digest of the presented token; because rows
are never deleted and the lookup ignores the revoked flag, a second logout
with the same raw token succeeds again (idempotent in effect and in
reporting); NotFound arises only for a never-stored token. -/
theorem C6_logout_amended (db : DB) (plain : String) :
    ((∀ t ∈ db.refreshTokens, t.token_hash ≠ sha256Hex plain) →
      (logout db plain).1 = .error (.notFound "Refresh token not found")) ∧
    (∀ t, db.refreshTokens.find? (fun r => r.token_hash == sha256Hex plain) = some t →
      (logout db plain).1 = .ok "Logged out successfully" ∧
      (∀ r ∈ (logout db plain).2.refreshTokens, r.id = t.id → r.is_revoked = true) ∧
      (logout (logout db plain).2 plain).1 = .ok "Logged out successfully") := by
  constructor
  · intro hno
    have hnone : db.refreshTokens.find? (fun r => r.token_hash == sha256Hex plain) = none := by
      rw [List.find?_eq_none]
      intro x hx
      simp only [beq_iff_eq]
      exact hno x hx
    unfold logout
    rw [hnone]
  · intro t hfind
    have hpred := List.find?_some hfind
    simp only [beq_iff_eq] at hpred
    have heq : logout db plain =
        (.ok "Logged out successfully",
         { db with refreshTokens :=
             replaceById db.refreshTokens { t with is_revoked := true } }) := by
      unfold logout
      rw [hfind]
    rw [heq]
    refine ⟨rfl, ?_, ?_⟩
    · intro r hr hid
      rcases List.mem_map.mp hr with ⟨r0, hr0, hfr⟩
      split at hfr
      · subst hfr
        rfl
      · subst hfr
        rename_i hneq
        exact absurd (by simp [hid]) hneq
    · have hex : ∃ x ∈ replaceById db.refreshTokens { t with is_revoked := true },
          (x.token_hash == sha256Hex plain) = true := by
        refine ⟨{ t with is_revoked := true }, ?_, by simp [hpred]⟩
        have hmm := List.mem_map_of_mem
          (fun r => if r.id == t.id then ({ t with is_revoked := true } : RTRec) else r)
          (List.mem_of_find?_eq_some hfind)
        simp only [beq_self_eq_true, if_true] at hmm
        exact hmm
      rcases Option.isSome_iff_exists.mp (List.find?_isSome.mpr hex) with ⟨u, hu⟩
      unfold logout
      dsimp only
      rw [hu]

/-- C9: a valid, unused, unexpired reset token makes resetPassword succeed,
replace the stored password hash of the owning user by the hash of the new
password, mark the presented token used (when that save succeeds), and — with
the logoutAll revocation update itself succeeding — revoke every refresh token
of that user via logoutAll, the revocation being attempted and taking effect
for both outcomes of the mark-used save.  (When the logoutAll update fails,
the source catches and swallows the error and still reports success, leaving
refresh tokens unrevoked.) -/
theorem C9_reset_password_amended (db : DB) (tokenPlain newPassword : String) (now : Nat)
    (markUsedOk : Bool) (t : PRRec)
    (hfind : db.resetTokens.find? (fun r => r.token_hash == sha256Hex tokenPlain) = some t)
    (hused : t.used = false) (hexp : ¬ t.expires_at < now) :
    (resetPassword db tokenPlain newPassword now markUsedOk true).1 =
      .ok "Your password has been reset successfully. Please log in with your new password." ∧
    (∀ u ∈ (resetPassword db tokenPlain newPassword now markUsedOk true).2.users,
      u.id = t.user_id → u.password_hash = bcryptHash12 newPassword) ∧
    (markUsedOk = true →
      ∀ r ∈ (resetPassword db tokenPlain newPassword now markUsedOk true).2.resetTokens,
        r.id = t.id → r.used = true) ∧
    (∀ rt ∈ (resetPassword db tokenPlain newPassword now markUsedOk true).2.refreshTokens,
      rt.userId = t.user_id → rt.is_revoked = true) := by
  have heq : resetPassword db tokenPlain newPassword now markUsedOk true =
      (.ok "Your password has been reset successfully. Please log in with your new password.",
       { users := updatePasswordRows db.users t.user_id (bcryptHash12 newPassword),
         preRegs := db.preRegs,
         refreshTokens := revokeByUser db.refreshTokens t.user_id,
         resetTokens := if markUsedOk then markUsedById db.resetTokens t else db.resetTokens,
         nextId := db.nextId }) := by
    unfold resetPassword
    rw [hfind]
    simp only [hused, Bool.false_eq_true, if_false, if_neg hexp]
    unfold logoutAll
    by_cases hm : markUsedOk
    · simp [hm]
    · simp [hm]
  rw [heq]
  refine ⟨rfl, ?_, ?_, ?_⟩
  · intro u hu hid
    rcases List.mem_map.mp hu with ⟨u0, hu0, hfu⟩
    split at hfu
    · subst hfu
      rfl
    · subst hfu
      rename_i hneq
      exact absurd (by simp [hid]) hneq
  · intro hm r hr hid
    rw [hm, if_pos rfl] at hr
    rcases List.mem_map.mp hr with ⟨r0, hr0, hfr⟩
    split at hfr
    · subst hfr
      rfl
    · subst hfr
      rename_i hneq
      exact absurd (by simp [hid]) hneq
  · intro rt hrt hid
    rcases List.mem_map.mp hrt with ⟨r0, hr0, hfr⟩
    split at hfr
    · subst hfr
      rfl
    · subst hfr
      rename_i hneq
      exact absurd (by simp [hid]) hneq

theorem C9_reset_password_amended_witness :
    (resetPassword c9db "pr1" "newpw" 50 false true).1 =
      .ok "Your password has been reset successfully. Please log in with your new password." ∧
    (∀ rt ∈ (resetPassword c9db "pr1" "newpw" 50 false true).2.refreshTokens,
      rt.userId = 0 → rt.is_revoked = true) := by
  have h := C9_reset_password_amended c9db "pr1" "newpw" 50 false
    { id := 2, token_hash := sha256Hex "pr1", user_id := 0, expires_at := 100, used := false }
    (by rfl) rfl (by decide)
  exact ⟨h.1, h.2.2.2⟩

/-- C9 counterexample: on the coded branch where the logoutAll revocation
update throws and is caught and swallowed (source lines 475-485),
resetPassword still reports success while the user keeps an unrevoked refresh
token — refuting the claim that every success revokes all of the user's
refresh tokens. -/
theorem C9_revocation_skipped_counterexample :
    (resetPassword c9db "pr1" "newpw" 50 true false).1 =
      .ok "Your password has been reset successfully. Please log in with your new password." ∧
      ∃ rt ∈ (resetPassword c9db "pr1" "newpw" 50 true false).2.refreshTokens,
        rt.userId = 0 ∧ rt.is_revoked = false := by
  exact ⟨rfl, by decide⟩

theorem C6_logout_amended_witness :
    (logout dbEmpty "zz").1 = .error (.notFound "Refresh token not found") ∧
      (logout (logout c6db "rt0").2 "rt0").1 = .ok "Logged out successfully" := by
  refine ⟨(C6_logout_amended dbEmpty "zz").1 (by intro t ht; cases ht), ?_⟩
  have h := (C6_logout_amended c6db "rt0").2
    { id := 0, userId := 0, token_hash := sha256Hex "rt0", device_id := "dev",
      ip := "ip", user_agent := "ua", last_seen_at := none, expires_at := 1000,
      is_revoked := false } (by rfl)
  exact h.2.2

/-- C10: each of the four expiry checks (verifyEmail, refreshTokens,
verifyResetToken, resetPassword) rejects a found token as expired exactly when
its expiry timestamp is strictly earlier than the current time; a token
presented at the instant expires_at = now passes the expiry check. -/
theorem C10_expiry_boundary (db : DB) (now : Nat)
    (vtok : String) (pr : PreRegRec)
    (h1 : db.preRegs.find? (fun p => p.verification_token_hash == sha256Hex vtok) = some pr)
    (rplain dev ftok : String) (rt : RTRec)
    (h2 : rtFindOne db (sha256Hex rplain) dev = some rt)
    (stok npw : String) (mOk lOk : Bool) (pt : PRRec)
    (h3 : db.resetTokens.find? (fun r => r.token_hash == sha256Hex stok) = some pt)
    (h3u : pt.used = false) :
    ((verifyEmail db vtok now).1 = .error (.conflict "Token expired") ↔
      pr.expires_at < now) ∧
    ((refreshTokens db rplain dev now ftok).1 =
      .error (.unauthorized "Refresh token expired") ↔ rt.expires_at < now) ∧
    ((verifyResetToken db stok now).1 =
      .error (.unauthorized "This reset link has expired. Please request a new one.") ↔
      pt.expires_at < now) ∧
    ((resetPassword db stok npw now mOk lOk).1 =
      .error (.unauthorized "This reset link has expired. Please request a new one.") ↔
      pt.expires_at < now) := by
  refine ⟨?_, ?_, ?_, ?_⟩
  · unfold verifyEmail
    rw [h1]
    dsimp only
    by_cases hexp : pr.expires_at < now
    · simp [hexp]
    · rw [if_neg hexp]
      constructor
      · intro hc
        exfalso
        revert hc
        split
        · rename_i e heq
          unfold createUser at heq
          split at heq
          · injection heq with he
            rw [← he]
            simp
          · exact absurd heq (by simp)
        · simp
      · intro hc
        exact absurd hc hexp
  · unfold refreshTokens
    rw [h2]
    unfold refreshResume
    dsimp only
    by_cases hexp : rt.expires_at < now
    · simp [hexp]
    · rw [if_neg hexp]
      constructor
      · intro hc
        exfalso
        revert hc
        split
        · simp
        · simp
      · intro hc
        exact absurd hc hexp
  · unfold verifyResetToken
    rw [h3]
    dsimp only
    rw [if_neg (by simp [h3u])]
    by_cases hexp : pt.expires_at < now
    · simp [hexp]
    · rw [if_neg hexp]
      constructor
      · intro hc
        exact absurd hc (by simp)
      · intro hc
        exact absurd hc hexp
  · unfold resetPassword
    rw [h3]
    dsimp only
    rw [if_neg (by simp [h3u])]
    by_cases hexp : pt.expires_at < now
    · simp [hexp]
    · rw [if_neg hexp]
      constructor
      · intro hc
        exact absurd hc (by simp)
      · intro hc
        exact absurd hc hexp

theorem C10_expiry_boundary_witness :
    ¬ (verifyEmail c10db "v1" 100).1 = .error (.conflict "Token expired") := by
  have h := C10_expiry_boundary c10db 100 "v1"
    { id := 1, email := "b@x.com", password_hash := bcryptHash12 "pw", full_name := "B",
      verification_token_hash := sha256Hex "v1", expires_at := 100, ip := "ip",
      user_agent := "ua" } (by rfl)
    "r1" "dev" "f1"
    { id := 2, userId := 0, token_hash := sha256Hex "r1", device_id := "dev", ip := "ip",
      user_agent := "ua", last_seen_at := none, expires_at := 100, is_revoked := false }
    (by rfl)
    "s1" "np" true true
    { id := 3, token_hash := sha256Hex "s1", user_id := 0, expires_at := 100, used := false }
    (by rfl) rfl
  intro hc
  exact absurd (h.1.mp hc) (by decide)

end EcomAuth

